import Mathlib

/-!
Verification of the SignalBus daemon (src/signalbus) against its
natural-language specification.

Strings from the Rust source are shallowly embedded as `List Char`
(`Str` below); `u64`/`u32` values as `Nat` (with explicit bounds where a
parse can overflow); `Option<T>` as `Option`; `HashMap` as association
lists with insert-replace semantics; `HashSet<Permission>` as
`Finset Permission`; `VecDeque` as `List` (front = head, back = tail).
Each definition is a direct translation of the correspondingly named
item of the Rust source (file and line ranges are given in the doc
comments).
-/

set_option autoImplicit false

namespace SignalBus

/-- Abbreviation for embedded Rust strings. -/
abbrev Str := List Char

/-- Coercion from Lean string literals to the embedded string type. -/
def str (s : String) : Str := s.data

/-- Model of `serde_json::Value`: payloads are parsed at emit time and
then carried around verbatim, and no subsystem a claim concerns ever
inspects their structure, so a value is represented here by its
serialized JSON text. -/
structure Json where
  text : Str
deriving DecidableEq

/-- Model of `Signal` (src/signalbus/src/models.rs lines 4-9):
name, optional JSON payload, timestamp in seconds since epoch. -/
structure Signal where
  name : Str
  payload : Option Json
  timestamp : Nat
deriving DecidableEq

/-- Model of `PersistentSignal` (src/signalbus/src/models.rs lines 11-16):
a Signal plus daemon-assigned id and optional ttl in seconds. -/
structure PersistentSignal where
  signal : Signal
  id : Nat
  ttl : Option Nat
deriving DecidableEq

/-- Translation of `pattern_match` (src/signalbus/src/models.rs lines
35-44; an identical copy sits at src/signalbus/src/main.rs lines 70-79):

    if pattern.ends_with(":*") {
        let prefix = &pattern[..pattern.len() - 2];
        signal_name.starts_with(prefix)
    } else if pattern == "*" { true } else { pattern == signal_name }

Note `pattern[..pattern.len() - 2]` removes the final two characters
`:` and `*`, so the retained prefix does NOT include the colon. -/
def pattern_match (pattern signal_name : Str) : Bool :=
  if (str ":*").isSuffixOf pattern then
    (pattern.take (pattern.length - 2)).isPrefixOf signal_name
  else if pattern = str "*" then
    true
  else
    pattern = signal_name

/-- The matcher as claim C1 words it: `*` always matches; a pattern
ending in `:*` matches iff the name starts with the prefix preceding
`:*` with the `:` included in the prefix (i.e. only the trailing `*` is
removed); otherwise exact equality. Written from the claim, for
comparison with `pattern_match` (which is written from the source). -/
def pattern_match_claimC1 (pattern signal_name : Str) : Bool :=
  if pattern = str "*" then
    true
  else if (str ":*").isSuffixOf pattern then
    (pattern.take (pattern.length - 1)).isPrefixOf signal_name
  else
    pattern = signal_name

/-- The matcher as amended: `*` always matches; a pattern ending in `:*`
matches iff the name starts with the pattern minus its final two
characters, so the colon is NOT part of the required prefix; otherwise
exact equality. -/
def pattern_match_amendedC1 (pattern signal_name : Str) : Bool :=
  if pattern = str "*" then
    true
  else if (str ":*").isSuffixOf pattern then
    (pattern.take (pattern.length - 2)).isPrefixOf signal_name
  else
    pattern = signal_name

/-- Claim C1 is false on the code: with pattern `build:*` the code keeps
only the prefix `build` (the colon is stripped together with the star),
so the name `builder` — which does not start with `build:` — is matched.
The code and the claim's matcher disagree at this concrete input. -/
theorem C1_counterexample :
    pattern_match (str "build:*") (str "builder") = true ∧
    pattern_match_claimC1 (str "build:*") (str "builder") = false := by
  constructor <;> decide

/-- Claim C1 as amended: for every pattern and name, the code's matcher
returns true when the pattern is `*`; when the pattern ends with `:*`,
true iff the name starts with the pattern minus the trailing `:*` (the
colon is NOT included in the required prefix, so `build:*` matches every
name starting with `build`, including `builder`); otherwise true iff
pattern equals name. -/
theorem C1_amended_pattern_match_spec (pattern signal_name : Str) :
    pattern_match pattern signal_name =
      pattern_match_amendedC1 pattern signal_name := by
  unfold pattern_match pattern_match_amendedC1
  by_cases hsuf : ((str ":*").isSuffixOf pattern : Bool)
  · by_cases hstar : pattern = str "*"
    · exact absurd (hstar ▸ hsuf) (by decide)
    · simp [hsuf, hstar]
  · by_cases hstar : pattern = str "*"
    · subst hstar
      have h2 : List.isSuffixOf (str ":*") (str "*") = false := by decide
      simp [h2]
    · simp [hsuf, hstar]

/-! ## History buffer: TTL sweep (claim C4) -/

/-- The retention predicate of `DaemonState::cleanup_expired`
(src/signalbus/src/daemon.rs lines 258-264): an entry is kept when its
`ttl` is absent or `signal.timestamp + ttl > now` (strict). -/
def cleanup_keep (now : Nat) (ps : PersistentSignal) : Bool :=
  match ps.ttl with
  | some ttl => decide (ps.signal.timestamp + ttl > now)
  | none => true

/-- Translation of `DaemonState::cleanup_expired` (src/signalbus/src/
daemon.rs lines 251-267): `VecDeque::retain` keeps, in order, exactly the
entries satisfying `cleanup_keep`. -/
def cleanup_expired (now : Nat) (history : List PersistentSignal) :
    List PersistentSignal :=
  history.filter (cleanup_keep now)

/-- The sweep as claim C4 words it: retain entries whose ttl is absent
or whose `timestamp + ttl ≥ now_seconds` (an entry is removed iff
`timestamp + ttl < now_seconds`). Written from the claim, for comparison
with `cleanup_expired` (which is written from the source). -/
def sweep_claimC4 (now : Nat) (history : List PersistentSignal) :
    List PersistentSignal :=
  history.filter (fun ps =>
    match ps.ttl with
    | some ttl => decide (ps.signal.timestamp + ttl ≥ now)
    | none => true)

/-- Claim C4 is false on the code at the expiry boundary: a signal with
`timestamp = 5`, `ttl = 5` at `now = 10` has `timestamp + ttl = now`, so
the claim retains it (`timestamp + ttl ≥ now`), but the code's retention
test is strict (`timestamp + ttl > now`) and removes it. -/
theorem C4_counterexample :
    cleanup_expired 10 [⟨⟨str "x", none, 5⟩, 1, some 5⟩] = [] ∧
    sweep_claimC4 10 [⟨⟨str "x", none, 5⟩, 1, some 5⟩] =
      [⟨⟨str "x", none, 5⟩, 1, some 5⟩] := by
  constructor <;> decide

/-- Claim C4 as amended: `sweep(now_seconds)` removes a persistent
signal iff it has a ttl and `timestamp + ttl ≤ now_seconds` (strict
expiry: it retains exactly the entries whose ttl is absent or whose
`timestamp + ttl > now_seconds`, in exact integer arithmetic), and the
surviving entries form a sublist of the original history, preserving
their order and ids. -/
theorem C4_amended_cleanup_expired_spec (now : Nat)
    (history : List PersistentSignal) :
    List.Sublist (cleanup_expired now history) history ∧
    ∀ ps, ps ∈ cleanup_expired now history ↔
      ps ∈ history ∧
        (ps.ttl = none ∨ ∃ t, ps.ttl = some t ∧ now < ps.signal.timestamp + t) := by
  constructor
  · exact List.filter_sublist history
  · intro ps
    rw [cleanup_expired, List.mem_filter]
    rcases h : ps.ttl with _ | t <;> simp [cleanup_keep, h]

/-! ## History buffer: size bound (claim C6) -/

/-- The history capacity `max_history_size` (src/signalbus/src/daemon.rs
line 49). -/
def max_history_size : Nat := 1000

/-- The eviction loop of `DaemonState::add_to_history`
(src/signalbus/src/daemon.rs lines 234-236): pop from the front while the
length exceeds the capacity. -/
def popFrontWhile (cap : Nat) : List PersistentSignal → List PersistentSignal
  | [] => []
  | x :: xs => if (x :: xs).length > cap then popFrontWhile cap xs else x :: xs

/-- Translation of `DaemonState::add_to_history` (src/signalbus/src/
daemon.rs lines 227-239). The state is `(next_id, history)`:
`next_id.fetch_add(1)` allocates the pushed entry's id, the entry is
pushed at the back, then the front is popped while the length exceeds
`max_history_size`. -/
def add_to_history (st : Nat × List PersistentSignal) (s : Signal)
    (ttl : Option Nat) : Nat × List PersistentSignal :=
  (st.1 + 1,
   popFrontWhile max_history_size (st.2 ++ [{ signal := s, id := st.1, ttl := ttl }]))

theorem popFrontWhile_eq_drop (cap : Nat) (l : List PersistentSignal) :
    popFrontWhile cap l = l.drop (l.length - cap) := by
  induction l with
  | nil => simp [popFrontWhile]
  | cons x xs ih =>
    rw [popFrontWhile]
    by_cases h : (x :: xs).length > cap
    · have hlen : (x :: xs).length - cap = (xs.length - cap) + 1 := by
        simp only [List.length_cons] at h ⊢
        omega
      rw [if_pos h, hlen, List.drop_succ_cons, ih]
    · have hlen : (x :: xs).length - cap = 0 := by
        simp only [List.length_cons] at h ⊢
        omega
      rw [if_neg h, hlen, List.drop_zero]

theorem length_add_to_history_le (st : Nat × List PersistentSignal)
    (s : Signal) (ttl : Option Nat) :
    (add_to_history st s ttl).2.length ≤ max_history_size := by
  rw [add_to_history, popFrontWhile_eq_drop]
  simp only [List.length_drop, List.length_append, List.length_cons,
    List.length_nil]
  omega

theorem foldl_add_to_history_length_le (emits : List (Signal × Option Nat)) :
    ∀ st : Nat × List PersistentSignal, st.2.length ≤ max_history_size →
      ((emits.foldl (fun st e => add_to_history st e.1 e.2) st).2).length ≤
        max_history_size := by
  induction emits with
  | nil => intro st h; exact h
  | cons e rest ih =>
    intro st _
    rw [List.foldl_cons]
    exact ih _ (length_add_to_history_le st e.1 e.2)

/-- Claim C6: starting from the daemon's initial state (`next_id = 1`,
empty history), after every sequence of emits the history length is at
most `max_history_size = 1000`; moreover each append pushes the new
persistent signal (carrying the allocated id) at the tail and then drops
exactly the oldest entries from the head — the result is the tail-end
suffix of the extended history. -/
theorem C6_history_bound :
    (∀ emits : List (Signal × Option Nat),
      ((emits.foldl (fun st e => add_to_history st e.1 e.2)
        (1, ([] : List PersistentSignal))).2).length ≤ max_history_size) ∧
    (∀ (st : Nat × List PersistentSignal) (s : Signal) (ttl : Option Nat),
      add_to_history st s ttl =
        (st.1 + 1, (st.2 ++ [PersistentSignal.mk s st.1 ttl]).drop
          ((st.2.length + 1) - max_history_size))) := by
  constructor
  · intro emits
    apply foldl_add_to_history_length_le
    simp [max_history_size]
  · intro st s ttl
    rw [add_to_history, popFrontWhile_eq_drop]
    simp

/-! ## Auth store: authenticate (claim C5) -/

/-- Model of `Permission` (referenced from src/signalbus/src/models.rs
via the daemon; the five variants used throughout src/signalbus/src/
daemon.rs). -/
inductive Permission where
  | Read
  | Write
  | History
  | RateLimit
  | Admin
deriving DecidableEq

/-- Model of `AuthToken`: the token string, bound user, permission
snapshot, creation time and optional absolute expiry (seconds since
epoch), as stored by `generate_token` (src/signalbus/src/daemon.rs lines
150-156). -/
structure AuthToken where
  token : Str
  user_id : Str
  permissions : Finset Permission
  created_at : Nat
  expires_at : Option Nat
deriving DecidableEq

/-- Lookup in an association-list model of a `HashMap<String, V>`
(`HashMap::get`). -/
def lookupAssoc {β : Type} : List (Str × β) → Str → Option β
  | [], _ => none
  | (k, v) :: rest, t => if k = t then some v else lookupAssoc rest t

/-- Insertion into an association-list model of a `HashMap<String, V>`:
`HashMap::insert` replaces the value at an existing key and otherwise
adds a new entry. -/
def insertAssoc {β : Type} : List (Str × β) → Str → β → List (Str × β)
  | [], k, v => [(k, v)]
  | (k', v') :: rest, k, v =>
    if k' = k then (k, v) :: rest else (k', v') :: insertAssoc rest k v

theorem lookupAssoc_insertAssoc_self {β : Type} (l : List (Str × β))
    (k : Str) (v : β) : lookupAssoc (insertAssoc l k v) k = some v := by
  induction l with
  | nil => simp [insertAssoc, lookupAssoc]
  | cons e rest ih =>
    rcases e with ⟨k', v'⟩
    by_cases h : k' = k
    · simp [insertAssoc, lookupAssoc, h]
    · simp [insertAssoc, lookupAssoc, h, ih]

/-- Lookup of a token in the `auth_tokens` store. -/
def findToken (tokens : List (Str × AuthToken)) (t : Str) : Option AuthToken :=
  lookupAssoc tokens t

/-- Translation of `DaemonState::authenticate` (src/signalbus/src/
daemon.rs lines 111-134): look the token up; if it has an expiry and
`now > expires_at` return false; then, if a permission is required, the
snapshot must contain it or contain Admin; with no required permission
the mere lookup suffices. `now` stands for the `SystemTime::now()`
reading. -/
def authenticate (tokens : List (Str × AuthToken)) (token : Str)
    (required_permission : Option Permission) (now : Nat) : Bool :=
  match findToken tokens token with
  | some auth_token =>
    if (match auth_token.expires_at with
        | some expires_at => decide (now > expires_at)
        | none => false) then
      false
    else
      match required_permission with
      | some required_perm =>
          decide (required_perm ∈ auth_token.permissions) ||
          decide (Permission.Admin ∈ auth_token.permissions)
      | none => true
  | none => false

/-- Claim C5: `authenticate(t, p)` at time `now` returns true iff `t` is
in the token store, AND (`t` has no expiry OR its expiry is ≥ `now`),
AND (`p` is absent OR `t`'s permission snapshot contains `p` OR contains
Admin). -/
theorem C5_authenticate_spec (tokens : List (Str × AuthToken)) (token : Str)
    (required : Option Permission) (now : Nat) :
    authenticate tokens token required now = true ↔
      ∃ a, findToken tokens token = some a ∧
        (a.expires_at = none ∨ ∃ e, a.expires_at = some e ∧ now ≤ e) ∧
        (required = none ∨ ∃ p, required = some p ∧
          (p ∈ a.permissions ∨ Permission.Admin ∈ a.permissions)) := by
  rcases h : findToken tokens token with _ | a
  · simp [authenticate, h]
  · rcases he : a.expires_at with _ | e <;>
      rcases hr : required with _ | p <;>
        simp [authenticate, h, he, hr]

/-! ## Subscription fan-out: delivery-queue send (claim C2) -/

/-- Model of one subscriber's bounded delivery queue, an
`async_channel::bounded(100)` channel (created at src/signalbus/src/
daemon.rs line 477): capacity, current buffered signals, and whether the
receiver side has been dropped. -/
structure Channel where
  cap : Nat
  buf : List Signal
  closed : Bool
deriving DecidableEq

/-- Possible outcomes of the `client.send(signal.clone()).await` call in
`DaemonState::publish` (src/signalbus/src/daemon.rs line 218). -/
inductive SendOutcome where
  /-- Free capacity: the signal is enqueued and the call completes. -/
  | delivered
  /-- Queue full, receiver alive: the awaited send suspends the
  publisher until capacity frees; the signal is not dropped. -/
  | waits
  /-- Receiver dropped: the send returns `Err` immediately, which the
  `let _ =` discards, so the signal is dropped for this subscriber. -/
  | errClosed
deriving DecidableEq

/-- Semantics of `Sender::send(..).await` on an `async_channel::bounded`
channel, the call made for each matching subscriber in
`DaemonState::publish` (src/signalbus/src/daemon.rs line 218): `Err`
immediately when the channel is closed, immediate enqueue when capacity
remains, and otherwise suspension until capacity frees (`async_channel`
documents that `send` waits on a full channel; the non-waiting variant
`try_send` is not the call the code makes). -/
def sendOutcome (ch : Channel) : SendOutcome :=
  if ch.closed then .errClosed
  else if ch.buf.length < ch.cap then .delivered
  else .waits

/-- Effect of the send on the queue at the moment of the call: the
signal is appended when the send completes immediately; on `Err` the
queue is unchanged; on a full open queue nothing has happened yet when
the publisher suspends. -/
def sendEffect (ch : Channel) (s : Signal) : Channel :=
  match sendOutcome ch with
  | .delivered => { ch with buf := ch.buf ++ [s] }
  | _ => ch

/-- Claim C2 is false on the code: it asserts the per-subscriber send is
non-blocking — on a full queue the signal is dropped and publish
completes without waiting, i.e. the send never waits. But the code
awaits `Sender::send`, which on a full queue with a live receiver
suspends the publisher; the concrete full open queue of capacity 100
witnesses this. -/
theorem C2_counterexample :
    ¬ (∀ ch : Channel, ch.closed = false → ch.buf.length = ch.cap →
        sendOutcome ch ≠ SendOutcome.waits) := by
  intro h
  exact h ⟨100, List.replicate 100 ⟨str "s", none, 0⟩, false⟩ rfl (by decide)
    (by decide)

/-- Claim C2 as amended: the fan-out send into each matching
subscriber's queue is an awaited `send`, not a non-blocking one. When
the subscriber's receiver is closed the send fails immediately, the
error is silently discarded and the queue is unchanged — the signal is
dropped for that subscriber only. When the queue has free capacity the
signal is enqueued at the tail. But when the queue is full with a live
receiver the publisher suspends until capacity frees: the signal is not
dropped and publish does not complete without waiting. -/
theorem C2_amended_send_semantics (ch : Channel) (s : Signal) :
    (ch.closed = true →
      sendOutcome ch = SendOutcome.errClosed ∧ sendEffect ch s = ch) ∧
    (ch.closed = false → ch.buf.length < ch.cap →
      sendOutcome ch = SendOutcome.delivered ∧
        sendEffect ch s = { ch with buf := ch.buf ++ [s] }) ∧
    (ch.closed = false → ch.cap ≤ ch.buf.length →
      sendOutcome ch = SendOutcome.waits ∧ sendEffect ch s = ch) := by
  refine ⟨fun hc => ?_, fun hc hlt => ?_, fun hc hge => ?_⟩
  · simp [sendOutcome, sendEffect, hc]
  · simp [sendOutcome, sendEffect, hc, hlt]
  · have : ¬ ch.buf.length < ch.cap := by omega
    simp [sendOutcome, sendEffect, hc, this]

/-- Witness instantiating every case of the amended C2 theorem: a closed
queue, a queue with free capacity, and a full open queue. -/
theorem C2_amended_send_semantics_witness :
    (sendOutcome ⟨100, [], true⟩ = SendOutcome.errClosed ∧
      sendEffect ⟨100, [], true⟩ ⟨str "s", none, 0⟩ = ⟨100, [], true⟩) ∧
    (sendOutcome ⟨100, [], false⟩ = SendOutcome.delivered ∧
      sendEffect ⟨100, [], false⟩ ⟨str "s", none, 0⟩ =
        ⟨100, [⟨str "s", none, 0⟩], false⟩) ∧
    (sendOutcome ⟨1, [⟨str "t", none, 0⟩], false⟩ = SendOutcome.waits ∧
      sendEffect ⟨1, [⟨str "t", none, 0⟩], false⟩ ⟨str "s", none, 0⟩ =
        ⟨1, [⟨str "t", none, 0⟩], false⟩) :=
  ⟨(C2_amended_send_semantics ⟨100, [], true⟩ ⟨str "s", none, 0⟩).1 rfl,
   (C2_amended_send_semantics ⟨100, [], false⟩ ⟨str "s", none, 0⟩).2.1 rfl
     (by decide),
   (C2_amended_send_semantics ⟨1, [⟨str "t", none, 0⟩], false⟩
     ⟨str "s", none, 0⟩).2.2 rfl (by decide)⟩

/-! ## Auth store: add_user and the CREATE_TOKEN body (claim C10) -/

/-- Model of `User` (src/signalbus/src/daemon.rs lines 22-28). -/
structure User where
  user_id : Str
  password_hash : Str
  permissions : Finset Permission
deriving DecidableEq

/-- Lookup of a user in the `users` store. -/
def findUser (users : List (Str × User)) (u : Str) : Option User :=
  lookupAssoc users u

/-- Translation of `DaemonState::add_user` (src/signalbus/src/daemon.rs
lines 102-109): unconditionally `users.insert(user_id, User { .. })`,
replacing any existing record for that user id. -/
def add_user (users : List (Str × User)) (user_id password_hash : Str)
    (permissions : Finset Permission) : List (Str × User) :=
  insertAssoc users user_id
    { user_id := user_id, password_hash := password_hash,
      permissions := permissions }

/-- Translation of `DaemonState::get_user_permissions`
(src/signalbus/src/daemon.rs lines 164-174): the user's permission set,
or the default {Read, Write} for an unknown user. -/
def get_user_permissions (users : List (Str × User)) (user_id : Str) :
    Finset Permission :=
  match findUser users user_id with
  | some user => user.permissions
  | none => {Permission.Read, Permission.Write}

/-- Translation of `DaemonState::generate_token` (src/signalbus/src/
daemon.rs lines 136-162). The randomly drawn 32-character token and the
`SystemTime::now()` reading are passed in as `newTok` and `now`; the
stored entry snapshots the user's current permissions and sets
`expires_at = now + expires_in` when an expiry is requested. -/
def generate_token (users : List (Str × User))
    (tokens : List (Str × AuthToken)) (user_id : Str)
    (expires_in : Option Nat) (newTok : Str) (now : Nat) :
    List (Str × AuthToken) × Str :=
  let auth_token : AuthToken :=
    { token := newTok, user_id := user_id,
      permissions := get_user_permissions users user_id,
      created_at := now,
      expires_at := expires_in.map (fun seconds => now + seconds) }
  (insertAssoc tokens newTok auth_token, newTok)

/-- The comma-separated split `permissions_str.split(',')` used by the
CREATE_TOKEN branch (src/signalbus/src/daemon.rs line 411): every part
is produced, including empty ones. -/
def splitAll (sep : Char) : Str → List Str
  | [] => [[]]
  | c :: cs =>
    match splitAll sep cs with
    | [] => [[c]]
    | p :: ps => if c = sep then [] :: p :: ps else (c :: p) :: ps

/-- The permission-string match of the CREATE_TOKEN branch
(src/signalbus/src/daemon.rs lines 415-421): the five literal names are
recognized, anything else is skipped (`_ => continue`). -/
def permission_of_str (s : Str) : Option Permission :=
  if s = str "Read" then some .Read
  else if s = str "Write" then some .Write
  else if s = str "History" then some .History
  else if s = str "RateLimit" then some .RateLimit
  else if s = str "Admin" then some .Admin
  else none

/-- The permission-set construction of the CREATE_TOKEN branch
(src/signalbus/src/daemon.rs lines 411-423): split on commas, insert
each recognized name into the set, skip the rest. -/
def parse_permissions (s : Str) : Finset Permission :=
  (splitAll ',' s).foldl
    (fun acc p =>
      match permission_of_str p with
      | some perm => insert perm acc
      | none => acc)
    ∅

/-- Translation of the authenticated CREATE_TOKEN body
(src/signalbus/src/daemon.rs lines 411-428): parse the permission list,
upsert the user with the literal password `"default_password"` and those
permissions, then issue a token for the (now updated) user. Returns the
updated users store, the updated token store and the new token. -/
def create_token_request (users : List (Str × User))
    (tokens : List (Str × AuthToken)) (user_id perms_str : Str)
    (expires_in : Option Nat) (newTok : Str) (now : Nat) :
    List (Str × User) × List (Str × AuthToken) × Str :=
  let perms := parse_permissions perms_str
  let users' := add_user users user_id (str "default_password") perms
  let (tokens', tok) := generate_token users' tokens user_id expires_in newTok now
  (users', tokens', tok)

/-- Claim C10: handling a CREATE_TOKEN request for a user that already
exists replaces that user's stored record before issuing the token: the
stored verifier becomes the literal `"default_password"` and the stored
permission set becomes exactly the (recognized) permissions listed in
the request, discarding the previous verifier and permissions; the
issued token's permission snapshot is taken from the replaced record, so
it too carries exactly the requested permissions. -/
theorem C10_create_token_replaces_user (users : List (Str × User))
    (tokens : List (Str × AuthToken)) (user_id perms_str : Str)
    (expires_in : Option Nat) (newTok : Str) (now : Nat) (old : User)
    (_hexists : findUser users user_id = some old) :
    findUser (create_token_request users tokens user_id perms_str
        expires_in newTok now).1 user_id =
      some { user_id := user_id, password_hash := str "default_password",
             permissions := parse_permissions perms_str } ∧
    findToken (create_token_request users tokens user_id perms_str
        expires_in newTok now).2.1 newTok =
      some { token := newTok, user_id := user_id,
             permissions := parse_permissions perms_str,
             created_at := now,
             expires_at := expires_in.map (fun seconds => now + seconds) } := by
  constructor
  · simp [create_token_request, add_user, findUser, generate_token,
      lookupAssoc_insertAssoc_self]
  · simp only [create_token_request, generate_token, findToken]
    rw [lookupAssoc_insertAssoc_self]
    simp [get_user_permissions, findUser, add_user,
      lookupAssoc_insertAssoc_self]

/-- Witness for C10 at a concrete store: user `bob` exists with an old
password and Admin permission; a CREATE_TOKEN for `bob` with
`Read,Write` listed replaces the record with the default password and
exactly {Read, Write}, and issues a token snapshotting {Read, Write}. -/
theorem C10_create_token_replaces_user_witness :
    findUser (create_token_request
        [(str "bob", ⟨str "bob", str "oldpw", {Permission.Admin}⟩)] []
        (str "bob") (str "Read,Write") none (str "tok123") 7).1 (str "bob") =
      some ⟨str "bob", str "default_password",
            parse_permissions (str "Read,Write")⟩ ∧
    findToken (create_token_request
        [(str "bob", ⟨str "bob", str "oldpw", {Permission.Admin}⟩)] []
        (str "bob") (str "Read,Write") none (str "tok123") 7).2.1
        (str "tok123") =
      some ⟨str "tok123", str "bob", parse_permissions (str "Read,Write"),
            7, none⟩ :=
  C10_create_token_replaces_user
    [(str "bob", ⟨str "bob", str "oldpw", {Permission.Admin}⟩)] []
    (str "bob") (str "Read,Write") none (str "tok123") 7
    ⟨str "bob", str "oldpw", {Permission.Admin}⟩ (by decide)

/-! ## Request protocol: line parsing in handle_client (claims C3, C8, C9) -/

/-- Split at the first occurrence of `sep`: the part before it and the
part after it, or `none` when `sep` does not occur. -/
def splitOnceOn (sep : Char) : Str → Option (Str × Str)
  | [] => none
  | c :: cs =>
    if c = sep then some ([], cs)
    else
      match splitOnceOn sep cs with
      | none => none
      | some (a, b) => some (c :: a, b)

/-- Rust `str::splitn(n, sep)` collected into a list: at most `n`
parts, the last part keeping the rest of the string unsplit. -/
def splitn : Nat → Char → Str → List Str
  | 0, _, _ => []
  | 1, _, s => [s]
  | n + 2, sep, s =>
    match splitOnceOn sep s with
    | none => [s]
    | some (a, b) => a :: splitn (n + 1) sep b

/-- Decimal digit value of a character, `none` for a non-digit. -/
def digitVal (c : Char) : Option Nat :=
  if '0' ≤ c ∧ c ≤ '9' then some (c.toNat - '0'.toNat) else none

/-- Decimal value of a nonempty all-digit string; `none` otherwise. -/
def digitsToNat : Str → Option Nat
  | [] => none
  | s =>
    s.foldl
      (fun acc c =>
        match acc, digitVal c with
        | some n, some d => some (n * 10 + d)
        | _, _ => none)
      (some 0)

/-- Rust `str::parse` for an unsigned integer type with exclusive upper
bound `bound`: an optional leading `+`, then one or more ASCII digits,
and the value must fit in the type. -/
def parseNatBounded (bound : Nat) (s : Str) : Option Nat :=
  let body :=
    match s with
    | '+' :: rest => rest
    | _ => s
  match digitsToNat body with
  | some v => if v < bound then some v else none
  | none => none

/-- Rust `str::parse::<u32>` (used for `<max>` in the RATE_LIMIT branch,
src/signalbus/src/daemon.rs line 535). -/
def parse_u32 (s : Str) : Option Nat := parseNatBounded (2 ^ 32) s

/-- Rust `str::parse::<u64>` (used for `<per_s>`, `<ttl_s>` and
`<expires_in>`). -/
def parse_u64 (s : Str) : Option Nat := parseNatBounded (2 ^ 64) s

/-- Fuel-driven core of `str::trim_start_matches`: repeatedly remove the
prefix `p` while it is present. A fuel of the string's length suffices
since every removal shortens the string by at least one character. -/
def trimAux (p : Str) : Nat → Str → Str
  | 0, s => s
  | fuel + 1, s =>
    if p.isPrefixOf s = true ∧ p ≠ [] then trimAux p fuel (s.drop p.length)
    else s

/-- Rust `str::trim_start_matches(p)`: remove every leading repetition
of `p` (used to strip the command keyword, e.g. src/signalbus/src/
daemon.rs line 375). -/
def trimStartMatches (p s : Str) : Str := trimAux p s.length s

/-- Model of the commands of the wire protocol with their parsed
fields, as extracted by the corresponding `handle_client` branch
(src/signalbus/src/daemon.rs lines 374-592). -/
inductive Command where
  | login (user_id password : Str)
  | createToken (token user_id permissions_str : Str) (expires_in : Option Nat)
  | emit (token signal_json : Str) (ttl : Option Nat)
  | listen (token pattern : Str)
  | history (token pattern limit_str : Str)
  | rateLimit (token pattern : Str) (max_signals per_seconds : Nat)
  | showRateLimits (token : Str)
  | revokeToken (admin_token token_to_revoke : Str)
deriving DecidableEq

/-- Outcome of the parse-and-validate layer of `handle_client`
(src/signalbus/src/daemon.rs lines 363-595) for one request line. -/
inductive Parsed where
  /-- No keyword matched: the function falls through every branch and
  returns without writing anything. -/
  | noMatch
  /-- A branch was taken, its field-count condition failed, and the
  branch has no else arm: nothing is written (the LOGIN branch). -/
  | silent
  /-- A branch wrote exactly this error line and returned. -/
  | errorResp (msg : Str)
  /-- A `?` operator propagated an error out of `handle_client` before
  anything was written: the connection task ends, the error is logged
  server-side, and no response reaches the client. -/
  | abort
  /-- The line passed the format layer; handling continues against the
  daemon state with these fields. -/
  | proceed (c : Command)
deriving DecidableEq

/-- The LOGIN branch's format layer (src/signalbus/src/daemon.rs lines
374-399): `splitn(2)`, a body only when exactly 2 parts, and no else
arm. -/
def loginCase : List Str → Parsed
  | [user_id, password] => .proceed (.login user_id password)
  | _ => .silent

/-- The CREATE_TOKEN branch's format layer (src/signalbus/src/daemon.rs
lines 400-435): `splitn(4)`, body when at least 3 parts with the
optional 4th parsed as `expires_in` (parse failure giving `None`), else
an error line. -/
def createTokenCase : List Str → Parsed
  | [t, u, p] => .proceed (.createToken t u p none)
  | [t, u, p, e] => .proceed (.createToken t u p (parse_u64 e))
  | _ => .errorResp (str "ERROR:Invalid CREATE_TOKEN format\n")

/-- The EMIT branch's format layer (src/signalbus/src/daemon.rs lines
436-467): `splitn(3)`, body when at least 2 parts with the optional 3rd
parsed as the ttl (parse failure giving `None`), else an error line. -/
def emitCase : List Str → Parsed
  | [t, j] => .proceed (.emit t j none)
  | [t, j, ttl_s] => .proceed (.emit t j (parse_u64 ttl_s))
  | _ => .errorResp (str "ERROR:Invalid EMIT format\n")

/-- The LISTEN branch's format layer (src/signalbus/src/daemon.rs lines
469-495): `splitn(2)`, exactly 2 parts, else an error line. -/
def listenCase : List Str → Parsed
  | [t, p] => .proceed (.listen t p)
  | _ => .errorResp (str "ERROR:Invalid LISTEN format\n")

/-- The HISTORY branch's format layer (src/signalbus/src/daemon.rs lines
496-527): `splitn(3)`, exactly 3 parts, else an error line. -/
def historyCase : List Str → Parsed
  | [t, p, l] => .proceed (.history t p l)
  | _ => .errorResp (str "ERROR:Invalid HISTORY format\n")

/-- The RATE_LIMIT branch's format layer (src/signalbus/src/daemon.rs
lines 529-547): `splitn(4)`, exactly 4 parts; `<max>` and `<per_s>` are
parsed with the `?` operator, so a parse failure aborts the handler
before anything is written; a field-count mismatch writes an error line
whose text includes the word `command`. -/
def rateLimitCase : List Str → Parsed
  | [t, p, m, s] =>
    match parse_u32 m with
    | none => .abort
    | some max_signals =>
      match parse_u64 s with
      | none => .abort
      | some per_seconds => .proceed (.rateLimit t p max_signals per_seconds)
  | _ => .errorResp (str "ERROR:Invalid RATE_LIMIT command format\n")

/-- The REVOKE_TOKEN branch's format layer (src/signalbus/src/daemon.rs
lines 572-591): `splitn(2)`, exactly 2 parts, else an error line. -/
def revokeTokenCase : List Str → Parsed
  | [a, t] => .proceed (.revokeToken a t)
  | _ => .errorResp (str "ERROR:Invalid REVOKE_TOKEN format\n")

def kwLOGIN : Str := ['L', 'O', 'G', 'I', 'N', '|']

def kwCREATE_TOKEN : Str :=
  ['C', 'R', 'E', 'A', 'T', 'E', '_', 'T', 'O', 'K', 'E', 'N', '|']

def kwEMIT : Str := ['E', 'M', 'I', 'T', '|']

def kwLISTEN : Str := ['L', 'I', 'S', 'T', 'E', 'N', '|']

def kwHISTORY : Str := ['H', 'I', 'S', 'T', 'O', 'R', 'Y', '|']

def kwRATE_LIMIT : Str :=
  ['R', 'A', 'T', 'E', '_', 'L', 'I', 'M', 'I', 'T', '|']

def kwSHOW_RATE_LIMITS : Str :=
  ['S', 'H', 'O', 'W', '_', 'R', 'A', 'T', 'E', '_', 'L', 'I', 'M', 'I',
   'T', 'S', '|']

def kwREVOKE_TOKEN : Str :=
  ['R', 'E', 'V', 'O', 'K', 'E', '_', 'T', 'O', 'K', 'E', 'N', '|']

/-- Translation of the keyword dispatch and format layer of
`handle_client` (src/signalbus/src/daemon.rs lines 374-592), applied to
the already-trimmed request line: the branches are tried in source
order with `starts_with`, each strips its keyword with
`trim_start_matches` and splits the remainder with the branch's bounded
`splitn`, and the per-branch case functions above record what is
written (or not) when the field count or a required numeric field is
bad. -/
def handle_line (line : Str) : Parsed :=
  if kwLOGIN.isPrefixOf line then
    loginCase (splitn 2 '|' (trimStartMatches kwLOGIN line))
  else if kwCREATE_TOKEN.isPrefixOf line then
    createTokenCase (splitn 4 '|' (trimStartMatches kwCREATE_TOKEN line))
  else if kwEMIT.isPrefixOf line then
    emitCase (splitn 3 '|' (trimStartMatches kwEMIT line))
  else if kwLISTEN.isPrefixOf line then
    listenCase (splitn 2 '|' (trimStartMatches kwLISTEN line))
  else if kwHISTORY.isPrefixOf line then
    historyCase (splitn 3 '|' (trimStartMatches kwHISTORY line))
  else if kwRATE_LIMIT.isPrefixOf line then
    rateLimitCase (splitn 4 '|' (trimStartMatches kwRATE_LIMIT line))
  else if kwSHOW_RATE_LIMITS.isPrefixOf line then
    .proceed (.showRateLimits (trimStartMatches kwSHOW_RATE_LIMITS line))
  else if kwREVOKE_TOKEN.isPrefixOf line then
    revokeTokenCase (splitn 2 '|' (trimStartMatches kwREVOKE_TOKEN line))
  else
    .noMatch

theorem trimAux_no_prefix (p rest : Str) (h : ¬ p.isPrefixOf rest = true) :
    ∀ fuel, trimAux p fuel rest = rest := by
  intro fuel
  cases fuel with
  | zero => rfl
  | succ f =>
    rw [trimAux, if_neg]
    intro hc
    exact h hc.1

theorem trimStartMatches_append (p rest : Str) (hp : p ≠ [])
    (h : ¬ p.isPrefixOf rest = true) :
    trimStartMatches p (p ++ rest) = rest := by
  obtain ⟨f, hf⟩ : ∃ f, (p ++ rest).length = f + 1 := by
    rcases p with _ | ⟨a, as⟩
    · exact absurd rfl hp
    · exact ⟨as.length + rest.length, by simp⟩
  rw [trimStartMatches, hf, trimAux,
    if_pos ⟨List.isPrefixOf_iff_prefix.mpr ⟨rest, rfl⟩, hp⟩, List.drop_left]
  exact trimAux_no_prefix p rest h f

theorem splitOnceOn_append (sep : Char) (pre post : Str) (h : sep ∉ pre) :
    splitOnceOn sep (pre ++ sep :: post) = some (pre, post) := by
  induction pre with
  | nil => simp [splitOnceOn]
  | cons c cs ih =>
    simp only [List.mem_cons, not_or] at h
    rw [List.cons_append, splitOnceOn, if_neg (fun hc => h.1 hc.symm),
      ih h.2]

theorem splitn_append_sep (n : Nat) (sep : Char) (pre post : Str)
    (h : sep ∉ pre) :
    splitn (n + 2) sep (pre ++ sep :: post) = pre :: splitn (n + 1) sep post := by
  rw [splitn, splitOnceOn_append sep pre post h]

theorem handle_line_login (rest : Str) :
    handle_line (kwLOGIN ++ rest) =
      loginCase (splitn 2 '|' (trimStartMatches kwLOGIN (kwLOGIN ++ rest))) := by
  rw [handle_line, if_pos (List.isPrefixOf_iff_prefix.mpr ⟨rest, rfl⟩)]

theorem handle_line_createToken (rest : Str) :
    handle_line (kwCREATE_TOKEN ++ rest) =
      createTokenCase (splitn 4 '|'
        (trimStartMatches kwCREATE_TOKEN (kwCREATE_TOKEN ++ rest))) := by
  rw [handle_line,
    if_neg (by simp [kwLOGIN, kwCREATE_TOKEN, List.isPrefixOf]),
    if_pos (List.isPrefixOf_iff_prefix.mpr ⟨rest, rfl⟩)]

theorem handle_line_emit (rest : Str) :
    handle_line (kwEMIT ++ rest) =
      emitCase (splitn 3 '|' (trimStartMatches kwEMIT (kwEMIT ++ rest))) := by
  rw [handle_line,
    if_neg (by simp [kwLOGIN, kwEMIT, List.isPrefixOf]),
    if_neg (by simp [kwCREATE_TOKEN, kwEMIT, List.isPrefixOf]),
    if_pos (List.isPrefixOf_iff_prefix.mpr ⟨rest, rfl⟩)]

theorem handle_line_listen (rest : Str) :
    handle_line (kwLISTEN ++ rest) =
      listenCase (splitn 2 '|' (trimStartMatches kwLISTEN (kwLISTEN ++ rest))) := by
  rw [handle_line,
    if_neg (by simp [kwLOGIN, kwLISTEN, List.isPrefixOf]),
    if_neg (by simp [kwCREATE_TOKEN, kwLISTEN, List.isPrefixOf]),
    if_neg (by simp [kwEMIT, kwLISTEN, List.isPrefixOf]),
    if_pos (List.isPrefixOf_iff_prefix.mpr ⟨rest, rfl⟩)]

theorem handle_line_history (rest : Str) :
    handle_line (kwHISTORY ++ rest) =
      historyCase (splitn 3 '|'
        (trimStartMatches kwHISTORY (kwHISTORY ++ rest))) := by
  rw [handle_line,
    if_neg (by simp [kwLOGIN, kwHISTORY, List.isPrefixOf]),
    if_neg (by simp [kwCREATE_TOKEN, kwHISTORY, List.isPrefixOf]),
    if_neg (by simp [kwEMIT, kwHISTORY, List.isPrefixOf]),
    if_neg (by simp [kwLISTEN, kwHISTORY, List.isPrefixOf]),
    if_pos (List.isPrefixOf_iff_prefix.mpr ⟨rest, rfl⟩)]

theorem handle_line_rateLimit (rest : Str) :
    handle_line (kwRATE_LIMIT ++ rest) =
      rateLimitCase (splitn 4 '|'
        (trimStartMatches kwRATE_LIMIT (kwRATE_LIMIT ++ rest))) := by
  rw [handle_line,
    if_neg (by simp [kwLOGIN, kwRATE_LIMIT, List.isPrefixOf]),
    if_neg (by simp [kwCREATE_TOKEN, kwRATE_LIMIT, List.isPrefixOf]),
    if_neg (by simp [kwEMIT, kwRATE_LIMIT, List.isPrefixOf]),
    if_neg (by simp [kwLISTEN, kwRATE_LIMIT, List.isPrefixOf]),
    if_neg (by simp [kwHISTORY, kwRATE_LIMIT, List.isPrefixOf]),
    if_pos (List.isPrefixOf_iff_prefix.mpr ⟨rest, rfl⟩)]

theorem handle_line_revokeToken (rest : Str) :
    handle_line (kwREVOKE_TOKEN ++ rest) =
      revokeTokenCase (splitn 2 '|'
        (trimStartMatches kwREVOKE_TOKEN (kwREVOKE_TOKEN ++ rest))) := by
  rw [handle_line,
    if_neg (by simp [kwLOGIN, kwREVOKE_TOKEN, List.isPrefixOf]),
    if_neg (by simp [kwCREATE_TOKEN, kwREVOKE_TOKEN, List.isPrefixOf]),
    if_neg (by simp [kwEMIT, kwREVOKE_TOKEN, List.isPrefixOf]),
    if_neg (by simp [kwLISTEN, kwREVOKE_TOKEN, List.isPrefixOf]),
    if_neg (by simp [kwHISTORY, kwREVOKE_TOKEN, List.isPrefixOf]),
    if_neg (by simp [kwRATE_LIMIT, kwREVOKE_TOKEN, List.isPrefixOf]),
    if_neg (by simp [kwSHOW_RATE_LIMITS, kwREVOKE_TOKEN, List.isPrefixOf]),
    if_pos (List.isPrefixOf_iff_prefix.mpr ⟨rest, rfl⟩)]

theorem loginCase_of_bad_len (parts : List Str) (h : parts.length ≠ 2) :
    loginCase parts = Parsed.silent := by
  rcases parts with _ | ⟨a, _ | ⟨b, _ | ⟨c, t⟩⟩⟩
  · rfl
  · rfl
  · exact absurd rfl h
  · rfl

theorem createTokenCase_of_bad_len (parts : List Str)
    (h : parts.length < 3) :
    createTokenCase parts =
      Parsed.errorResp (str "ERROR:Invalid CREATE_TOKEN format\n") := by
  rcases parts with _ | ⟨a, _ | ⟨b, _ | ⟨c, t⟩⟩⟩
  · rfl
  · rfl
  · rfl
  · exfalso
    simp only [List.length_cons] at h
    omega

theorem emitCase_of_bad_len (parts : List Str) (h : parts.length < 2) :
    emitCase parts = Parsed.errorResp (str "ERROR:Invalid EMIT format\n") := by
  rcases parts with _ | ⟨a, _ | ⟨b, t⟩⟩
  · rfl
  · rfl
  · exfalso
    simp only [List.length_cons] at h
    omega

theorem listenCase_of_bad_len (parts : List Str) (h : parts.length ≠ 2) :
    listenCase parts = Parsed.errorResp (str "ERROR:Invalid LISTEN format\n") := by
  rcases parts with _ | ⟨a, _ | ⟨b, _ | ⟨c, t⟩⟩⟩
  · rfl
  · rfl
  · exact absurd rfl h
  · rfl

theorem historyCase_of_bad_len (parts : List Str) (h : parts.length ≠ 3) :
    historyCase parts =
      Parsed.errorResp (str "ERROR:Invalid HISTORY format\n") := by
  rcases parts with _ | ⟨a, _ | ⟨b, _ | ⟨c, _ | ⟨d, t⟩⟩⟩⟩
  · rfl
  · rfl
  · rfl
  · exact absurd rfl h
  · rfl

theorem rateLimitCase_of_bad_len (parts : List Str) (h : parts.length ≠ 4) :
    rateLimitCase parts =
      Parsed.errorResp (str "ERROR:Invalid RATE_LIMIT command format\n") := by
  rcases parts with _ | ⟨a, _ | ⟨b, _ | ⟨c, _ | ⟨d, _ | ⟨e, t⟩⟩⟩⟩⟩
  · rfl
  · rfl
  · rfl
  · rfl
  · exact absurd rfl h
  · rfl

theorem revokeTokenCase_of_bad_len (parts : List Str) (h : parts.length ≠ 2) :
    revokeTokenCase parts =
      Parsed.errorResp (str "ERROR:Invalid REVOKE_TOKEN format\n") := by
  rcases parts with _ | ⟨a, _ | ⟨b, _ | ⟨c, t⟩⟩⟩
  · rfl
  · rfl
  · exact absurd rfl h
  · rfl

/-- Claim C3 is false on the code: in `EMIT|<tok>|<signal_json>[|<ttl>]`
the JSON is the second of three `splitn(3)` fields, so a pipe inside the
JSON ends the field early. For the concrete request whose JSON is
`{"name":"a|b","payload":null,"timestamp":1}` the branch proceeds with
signal field `{"name":"a` — a strict prefix, not the complete JSON (the
remainder is consumed by the ttl field, whose parse fails, giving no
ttl). The truncated text is not the payload's JSON, so the claimed
successful parse and OK response cannot occur. -/
theorem C3_counterexample :
    handle_line
        (str "EMIT|tok|\x7b\"name\":\"a|b\",\"payload\":null,\"timestamp\":1\x7d") =
      Parsed.proceed (Command.emit (str "tok") (str "\x7b\"name\":\"a") none) ∧
    str "\x7b\"name\":\"a" ≠
      str "\x7b\"name\":\"a|b\",\"payload\":null,\"timestamp\":1\x7d" := by
  constructor <;> decide

/-- Claim C3 as amended: for every EMIT request whose signal JSON field
contains a pipe, the bounded `splitn(3)` does NOT deliver the complete
JSON: writing the JSON as `j1 ++ "|" ++ j2` with `j1` pipe-free, the
signal field handed to the JSON parser is just `j1` (the prefix before
the first pipe) and `j2` becomes the ttl field; in particular the parsed
field differs from the complete JSON. Only payloads without pipes reach
the parser intact. -/
theorem C3_amended_emit_pipe_truncates (tok j1 j2 : Str)
    (htok : '|' ∉ tok) (hj1 : '|' ∉ j1)
    (hkw : ¬ kwEMIT.isPrefixOf (tok ++ '|' :: (j1 ++ '|' :: j2)) = true) :
    handle_line (kwEMIT ++ (tok ++ '|' :: (j1 ++ '|' :: j2))) =
      Parsed.proceed (Command.emit tok j1 (parse_u64 j2)) ∧
    j1 ≠ j1 ++ '|' :: j2 := by
  constructor
  · rw [handle_line_emit, trimStartMatches_append _ _ (by decide) hkw,
      splitn_append_sep 1 '|' tok (j1 ++ '|' :: j2) htok,
      splitn_append_sep 0 '|' j1 j2 hj1]
    rfl
  · intro h
    have hl := congrArg List.length h
    simp only [List.length_append, List.length_cons] at hl
    omega

/-- Witness for amended C3 at the concrete request of the
counterexample: the signal field delivered is the JSON's prefix before
its first pipe and the remainder fails to parse as a ttl. -/
theorem C3_amended_emit_pipe_truncates_witness :
    handle_line (kwEMIT ++ (str "tok" ++ '|' ::
        (str "\x7b\"name\":\"a" ++ '|' ::
          str "b\",\"payload\":null,\"timestamp\":1\x7d"))) =
      Parsed.proceed (Command.emit (str "tok") (str "\x7b\"name\":\"a") none) ∧
    str "\x7b\"name\":\"a" ≠
      str "\x7b\"name\":\"a" ++ '|' ::
        str "b\",\"payload\":null,\"timestamp\":1\x7d" := by
  have h := C3_amended_emit_pipe_truncates (str "tok") (str "\x7b\"name\":\"a")
    (str "b\",\"payload\":null,\"timestamp\":1\x7d")
    (by decide) (by decide) (by decide)
  exact ⟨h.1.trans (by decide), h.2⟩

/-- Claim C8 is false on the code at its own cited instance: a LOGIN
line with a single field after the keyword. The LOGIN branch has no else
arm for its field-count check, so the daemon writes nothing at all —
not the line `ERROR:Invalid LOGIN format\n` the claim requires. -/
theorem C8_counterexample :
    handle_line (str "LOGIN|admin") = Parsed.silent ∧
    Parsed.silent ≠ Parsed.errorResp (str "ERROR:Invalid LOGIN format\n") := by
  constructor <;> decide

/-- Claim C8 as amended: on a field-count mismatch, CREATE_TOKEN, EMIT,
LISTEN, HISTORY and REVOKE_TOKEN respond with exactly
`ERROR:Invalid <COMMAND> format\n`; RATE_LIMIT responds with
`ERROR:Invalid RATE_LIMIT command format\n` (the word `command` is part
of the text); and LOGIN sends no response at all (its branch has no else
arm, so the connection closes silently). Each conjunct quantifies over
every remainder `rest` of the line after the keyword (the hypothesis
that `rest` does not itself start with the keyword pins down
`trim_start_matches`, which strips repeated keywords). -/
theorem C8_amended_format_mismatch_responses :
    (∀ rest : Str, ¬ kwLOGIN.isPrefixOf rest = true →
      (splitn 2 '|' rest).length ≠ 2 →
      handle_line (kwLOGIN ++ rest) = Parsed.silent) ∧
    (∀ rest : Str, ¬ kwCREATE_TOKEN.isPrefixOf rest = true →
      (splitn 4 '|' rest).length < 3 →
      handle_line (kwCREATE_TOKEN ++ rest) =
        Parsed.errorResp (str "ERROR:Invalid CREATE_TOKEN format\n")) ∧
    (∀ rest : Str, ¬ kwEMIT.isPrefixOf rest = true →
      (splitn 3 '|' rest).length < 2 →
      handle_line (kwEMIT ++ rest) =
        Parsed.errorResp (str "ERROR:Invalid EMIT format\n")) ∧
    (∀ rest : Str, ¬ kwLISTEN.isPrefixOf rest = true →
      (splitn 2 '|' rest).length ≠ 2 →
      handle_line (kwLISTEN ++ rest) =
        Parsed.errorResp (str "ERROR:Invalid LISTEN format\n")) ∧
    (∀ rest : Str, ¬ kwHISTORY.isPrefixOf rest = true →
      (splitn 3 '|' rest).length ≠ 3 →
      handle_line (kwHISTORY ++ rest) =
        Parsed.errorResp (str "ERROR:Invalid HISTORY format\n")) ∧
    (∀ rest : Str, ¬ kwRATE_LIMIT.isPrefixOf rest = true →
      (splitn 4 '|' rest).length ≠ 4 →
      handle_line (kwRATE_LIMIT ++ rest) =
        Parsed.errorResp (str "ERROR:Invalid RATE_LIMIT command format\n")) ∧
    (∀ rest : Str, ¬ kwREVOKE_TOKEN.isPrefixOf rest = true →
      (splitn 2 '|' rest).length ≠ 2 →
      handle_line (kwREVOKE_TOKEN ++ rest) =
        Parsed.errorResp (str "ERROR:Invalid REVOKE_TOKEN format\n")) := by
  refine ⟨fun rest hkw hlen => ?_, fun rest hkw hlen => ?_,
    fun rest hkw hlen => ?_, fun rest hkw hlen => ?_,
    fun rest hkw hlen => ?_, fun rest hkw hlen => ?_,
    fun rest hkw hlen => ?_⟩
  · rw [handle_line_login, trimStartMatches_append _ _ (by decide) hkw]
    exact loginCase_of_bad_len _ hlen
  · rw [handle_line_createToken, trimStartMatches_append _ _ (by decide) hkw]
    exact createTokenCase_of_bad_len _ hlen
  · rw [handle_line_emit, trimStartMatches_append _ _ (by decide) hkw]
    exact emitCase_of_bad_len _ hlen
  · rw [handle_line_listen, trimStartMatches_append _ _ (by decide) hkw]
    exact listenCase_of_bad_len _ hlen
  · rw [handle_line_history, trimStartMatches_append _ _ (by decide) hkw]
    exact historyCase_of_bad_len _ hlen
  · rw [handle_line_rateLimit, trimStartMatches_append _ _ (by decide) hkw]
    exact rateLimitCase_of_bad_len _ hlen
  · rw [handle_line_revokeToken, trimStartMatches_append _ _ (by decide) hkw]
    exact revokeTokenCase_of_bad_len _ hlen

/-- Witness instantiating every conjunct of the amended C8 theorem at a
concrete mismatched request line. -/
theorem C8_amended_format_mismatch_responses_witness :
    handle_line (kwLOGIN ++ str "admin") = Parsed.silent ∧
    handle_line (kwCREATE_TOKEN ++ str "tok|alice") =
      Parsed.errorResp (str "ERROR:Invalid CREATE_TOKEN format\n") ∧
    handle_line (kwEMIT ++ str "tok") =
      Parsed.errorResp (str "ERROR:Invalid EMIT format\n") ∧
    handle_line (kwLISTEN ++ str "tok") =
      Parsed.errorResp (str "ERROR:Invalid LISTEN format\n") ∧
    handle_line (kwHISTORY ++ str "tok|pat") =
      Parsed.errorResp (str "ERROR:Invalid HISTORY format\n") ∧
    handle_line (kwRATE_LIMIT ++ str "tok|pat|5") =
      Parsed.errorResp (str "ERROR:Invalid RATE_LIMIT command format\n") ∧
    handle_line (kwREVOKE_TOKEN ++ str "tok") =
      Parsed.errorResp (str "ERROR:Invalid REVOKE_TOKEN format\n") :=
  ⟨C8_amended_format_mismatch_responses.1 (str "admin")
      (by decide) (by decide),
   (C8_amended_format_mismatch_responses.2).1 (str "tok|alice")
      (by decide) (by decide),
   (C8_amended_format_mismatch_responses.2.2).1 (str "tok")
      (by decide) (by decide),
   (C8_amended_format_mismatch_responses.2.2.2).1 (str "tok")
      (by decide) (by decide),
   (C8_amended_format_mismatch_responses.2.2.2.2).1 (str "tok|pat")
      (by decide) (by decide),
   (C8_amended_format_mismatch_responses.2.2.2.2.2).1 (str "tok|pat|5")
      (by decide) (by decide),
   (C8_amended_format_mismatch_responses.2.2.2.2.2.2) (str "tok")
      (by decide) (by decide)⟩

/-- Claim C9 is false on the code: for the correctly field-counted
request `RATE_LIMIT|tok|pat|abc|5` (four fields after the keyword, with
`<max>` not numeric) the branch parses `<max>` with the `?` operator, so
the parse failure aborts `handle_client` before any write: no
`ERROR:…` line is produced — the connection just closes while the task's
error is logged server-side. -/
theorem C9_counterexample :
    (splitn 4 '|' (str "tok|pat|abc|5")).length = 4 ∧
    parse_u32 (str "abc") = none ∧
    handle_line (str "RATE_LIMIT|tok|pat|abc|5") = Parsed.abort ∧
    Parsed.abort ≠
      Parsed.errorResp (str "ERROR:Invalid RATE_LIMIT command format\n") := by
  refine ⟨by decide, by decide, by decide, by decide⟩

/-- Claim C9 as amended: for every correctly field-counted RATE_LIMIT
request whose `<max>` does not parse as a u32, or whose `<max>` parses
but whose `<per_s>` does not parse as a u64, the daemon writes no
response line at all: the `?` operator propagates the parse error out of
the handler (it is logged server-side) and the connection closes without
an `ERROR:…` line. -/
theorem C9_amended_rate_limit_parse_aborts (rest t p m s : Str)
    (hkw : ¬ kwRATE_LIMIT.isPrefixOf rest = true)
    (hparts : splitn 4 '|' rest = [t, p, m, s])
    (hbad : parse_u32 m = none ∨ parse_u64 s = none) :
    handle_line (kwRATE_LIMIT ++ rest) = Parsed.abort := by
  rw [handle_line_rateLimit, trimStartMatches_append _ _ (by decide) hkw,
    hparts]
  rcases hbad with hm | hs
  · simp [rateLimitCase, hm]
  · rcases hm : parse_u32 m with _ | mv
    · simp [rateLimitCase, hm]
    · simp [rateLimitCase, hm, hs]

/-- Witness for amended C9: one request whose `<max>` is not numeric and
one whose `<per_s>` is not numeric; both abort with nothing written. -/
theorem C9_amended_rate_limit_parse_aborts_witness :
    handle_line (kwRATE_LIMIT ++ str "tok|pat|abc|5") = Parsed.abort ∧
    handle_line (kwRATE_LIMIT ++ str "tok|pat|5|xyz") = Parsed.abort :=
  ⟨C9_amended_rate_limit_parse_aborts (str "tok|pat|abc|5")
      (str "tok") (str "pat") (str "abc") (str "5")
      (by decide) (by decide) (Or.inl (by decide)),
   C9_amended_rate_limit_parse_aborts (str "tok|pat|5|xyz")
      (str "tok") (str "pat") (str "5") (str "xyz")
      (by decide) (by decide) (Or.inr (by decide))⟩

/-! ## Rate limiter (claim C7) -/

/-- Model of `RateLimitRule` (src/signalbus/src/daemon.rs lines 16-20):
`max_signals` is the u32 cap and `time_window` the window length.
Monotonic `Instant`s and `Duration`s are modeled as `Nat` in one common
abstract time unit, with `Instant::duration_since` as truncated
subtraction. -/
structure RateLimitRule where
  max_signals : Nat
  time_window : Nat
deriving DecidableEq

/-- The counter-trim loop of `DaemonState::check_rate_limit`
(src/signalbus/src/daemon.rs lines 291-297): pop entries from the front
while `now.duration_since(front) > time_window`, stopping at the first
recent entry. -/
def trimCounter (now window : Nat) : List Nat → List Nat
  | [] => []
  | f :: rest =>
    if now - f > window then trimCounter now window rest else f :: rest

/-- The per-rule body of `DaemonState::check_rate_limit`
(src/signalbus/src/daemon.rs lines 289-306) on the matched rule's
counter: trim entries older than the window, reject when the remaining
count reaches `max_signals` (leaving the trimmed counter), otherwise
append `now` and admit. Returns the decision and the counter to store
back. -/
def applyRule (rule : RateLimitRule) (counter : List Nat) (now : Nat) :
    Bool × List Nat :=
  if rule.max_signals ≤ (trimCounter now rule.time_window counter).length then
    (false, trimCounter now rule.time_window counter)
  else
    (true, trimCounter now rule.time_window counter ++ [now])

/-- Translation of `DaemonState::check_rate_limit` (src/signalbus/src/
daemon.rs lines 281-311): iterate the configured rules; at the first
rule whose pattern matches the signal name, fetch that rule's counter
(an empty one when absent, as `entry().or_insert_with` does), apply the
rule and return, storing the updated counter; when no rule matches,
admit without touching any counter. The rule map's iteration order is
the association list's order (the source's HashMap order is arbitrary
but fixed for a given map). Returns the decision and the updated
counters. -/
def check_rate_limit :
    List (Str × RateLimitRule) → List (Str × List Nat) → Nat → Str →
      Bool × List (Str × List Nat)
  | [], counters, _, _ => (true, counters)
  | (pattern, rule) :: restRules, counters, now, signal_name =>
    if pattern_match pattern signal_name then
      ((applyRule rule ((lookupAssoc counters pattern).getD []) now).1,
       insertAssoc counters pattern
         (applyRule rule ((lookupAssoc counters pattern).getD []) now).2)
    else
      check_rate_limit restRules counters now signal_name

/-- A run of the rate limiter over a trace of `(signal_name, time)`
publish attempts: each attempt calls `check_rate_limit` with the current
counters; the first component collects the admitted attempts in order,
the second is the final counters. -/
def run_rate_limiter (rules : List (Str × RateLimitRule)) :
    List (Str × List Nat) → List (Str × Nat) →
      List (Str × Nat) × List (Str × List Nat)
  | counters, [] => ([], counters)
  | counters, (name, t) :: trace =>
    match check_rate_limit rules counters t name with
    | (ok, counters') =>
      (if ok then (name, t) :: (run_rate_limiter rules counters' trace).1
       else (run_rate_limiter rules counters' trace).1,
       (run_rate_limiter rules counters' trace).2)

theorem trimCounter_eq_filter (now w : Nat) (l : List Nat)
    (hs : l.Sorted (· ≤ ·)) :
    trimCounter now w l = l.filter (fun u => decide (now - u ≤ w)) := by
  induction l with
  | nil => rfl
  | cons f rest ih =>
    rw [List.sorted_cons] at hs
    rw [trimCounter]
    by_cases h : now - f > w
    · rw [if_pos h, ih hs.2, List.filter_cons]
      have hf : ¬ (now - f ≤ w) := by omega
      simp [hf]
    · rw [if_neg h]
      rw [Eq.comm, List.filter_eq_self]
      intro u hu
      rcases List.mem_cons.mp hu with rfl | hu'
      · simp only [decide_eq_true_eq]
        omega
      · have := hs.1 u hu'
        simp only [decide_eq_true_eq]
        omega

theorem length_filter_le_of_imp {α : Type} (l : List α) (p q : α → Bool)
    (h : ∀ x ∈ l, p x = true → q x = true) :
    (l.filter p).length ≤ (l.filter q).length := by
  induction l with
  | nil => simp
  | cons a t ih =>
    have ht : ∀ x ∈ t, p x = true → q x = true :=
      fun x hx => h x (List.mem_cons_of_mem a hx)
    rw [List.filter_cons, List.filter_cons]
    by_cases hp : p a = true
    · rw [hp, h a (List.mem_cons_self a t) hp]
      simpa using ih ht
    · have hp' : p a = false := by
        cases hpa : p a
        · rfl
        · exact absurd hpa hp
      rw [hp']
      cases hq : q a <;> simp <;> [exact ih ht; exact Nat.le_succ_of_le (ih ht)]

theorem chain_le_of_le {a b : Nat} {l : List Nat}
    (h : List.Chain (· ≤ ·) b l) (hab : a ≤ b) :
    List.Chain (· ≤ ·) a l := by
  cases l with
  | nil => exact List.Chain.nil
  | cons c t =>
    rw [List.chain_cons] at h ⊢
    exact ⟨le_trans hab h.1, h.2⟩

/-- Invariant induction for the single-rule sliding window: running the
limiter configured with the one rule `(p, rule)` from counters whose
`p`-entry holds exactly the not-yet-expired admitted matching times
`A.filter (tstar - · ≤ w)`, the combined list of past and future
admitted matching times keeps at most `max_signals` entries inside every
window `[s, s + w]`. -/
theorem rl_run_window_bound (p : Str) (maxS w : Nat) :
    ∀ (trace : List (Str × Nat)) (counters : List (Str × List Nat))
      (A : List Nat) (tstar : Nat),
      List.Chain (· ≤ ·) tstar (trace.map Prod.snd) →
      A.Sorted (· ≤ ·) →
      (∀ u ∈ A, u ≤ tstar) →
      (lookupAssoc counters p).getD [] =
        A.filter (fun u => decide (tstar - u ≤ w)) →
      (∀ s, (A.filter
          (fun u => decide (s ≤ u) && decide (u ≤ s + w))).length ≤ maxS) →
      ∀ s, ((A ++
          ((run_rate_limiter [(p, ⟨maxS, w⟩)] counters trace).1.filter
            (fun nt => pattern_match p nt.1)).map Prod.snd).filter
          (fun u => decide (s ≤ u) && decide (u ≤ s + w))).length ≤ maxS := by
  intro trace
  induction trace with
  | nil =>
    intro counters A tstar _ _ _ _ hbound s
    simpa [run_rate_limiter] using hbound s
  | cons e rest ih =>
    rcases e with ⟨name, t⟩
    intro counters A tstar hchain hsorted hle hcounter hbound s
    rw [List.map_cons, List.chain_cons] at hchain
    obtain ⟨htt, hchain'⟩ := hchain
    by_cases hm : pattern_match p name = true
    · -- the single rule matches: its counter is trimmed and consulted
      have hsortC : (A.filter (fun u => decide (tstar - u ≤ w))).Sorted (· ≤ ·) :=
        List.Pairwise.filter _ hsorted
      have htrim : trimCounter t w ((lookupAssoc counters p).getD []) =
          A.filter (fun u => decide (t - u ≤ w)) := by
        rw [hcounter, trimCounter_eq_filter t w _ hsortC, List.filter_filter]
        apply List.filter_congr
        intro u hu
        have hut : u ≤ tstar := hle u hu
        by_cases h : t - u ≤ w
        · have h2 : tstar - u ≤ w := by omega
          simp [h, h2]
        · simp [h]
      by_cases hrej : maxS ≤ (A.filter (fun u => decide (t - u ≤ w))).length
      · -- rejected: counter stays trimmed, nothing admitted
        have happly : applyRule ⟨maxS, w⟩ ((lookupAssoc counters p).getD []) t =
            (false, A.filter (fun u => decide (t - u ≤ w))) := by
          show (if maxS ≤
                (trimCounter t w ((lookupAssoc counters p).getD [])).length then
              (false, trimCounter t w ((lookupAssoc counters p).getD []))
            else
              (true, trimCounter t w ((lookupAssoc counters p).getD []) ++ [t])) =
            (false, A.filter (fun u => decide (t - u ≤ w)))
          rw [htrim, if_pos hrej]
        have hstep : check_rate_limit [(p, ⟨maxS, w⟩)] counters t name =
            (false, insertAssoc counters p
              (A.filter (fun u => decide (t - u ≤ w)))) := by
          rw [check_rate_limit, if_pos hm, happly]
        have hrun1 : (run_rate_limiter [(p, ⟨maxS, w⟩)] counters
              ((name, t) :: rest)).1 =
            (run_rate_limiter [(p, ⟨maxS, w⟩)] (insertAssoc counters p
              (A.filter (fun u => decide (t - u ≤ w)))) rest).1 := by
          rw [run_rate_limiter, hstep]
          rfl
        rw [hrun1]
        apply ih _ A t hchain' hsorted (fun u hu => le_trans (hle u hu) htt)
        · rw [lookupAssoc_insertAssoc_self, Option.getD_some]
        · exact hbound
      · -- admitted: `t` is appended to the counter and to the admissions
        have happly : applyRule ⟨maxS, w⟩ ((lookupAssoc counters p).getD []) t =
            (true, A.filter (fun u => decide (t - u ≤ w)) ++ [t]) := by
          show (if maxS ≤
                (trimCounter t w ((lookupAssoc counters p).getD [])).length then
              (false, trimCounter t w ((lookupAssoc counters p).getD []))
            else
              (true, trimCounter t w ((lookupAssoc counters p).getD []) ++ [t])) =
            (true, A.filter (fun u => decide (t - u ≤ w)) ++ [t])
          rw [htrim, if_neg hrej]
        have hstep : check_rate_limit [(p, ⟨maxS, w⟩)] counters t name =
            (true, insertAssoc counters p
              (A.filter (fun u => decide (t - u ≤ w)) ++ [t])) := by
          rw [check_rate_limit, if_pos hm, happly]
        have hrun1 : (run_rate_limiter [(p, ⟨maxS, w⟩)] counters
              ((name, t) :: rest)).1 =
            (name, t) :: (run_rate_limiter [(p, ⟨maxS, w⟩)] (insertAssoc counters p
              (A.filter (fun u => decide (t - u ≤ w)) ++ [t])) rest).1 := by
          rw [run_rate_limiter, hstep]
          rfl
        rw [hrun1, List.filter_cons]
        simp only [hm, if_pos, List.map_cons]
        have hshape : A ++ t :: ((run_rate_limiter [(p, ⟨maxS, w⟩)]
              (insertAssoc counters p
                (A.filter (fun u => decide (t - u ≤ w)) ++ [t])) rest).1.filter
              (fun nt => pattern_match p nt.1)).map Prod.snd =
            (A ++ [t]) ++ ((run_rate_limiter [(p, ⟨maxS, w⟩)]
              (insertAssoc counters p
                (A.filter (fun u => decide (t - u ≤ w)) ++ [t])) rest).1.filter
              (fun nt => pattern_match p nt.1)).map Prod.snd := by
          simp
        rw [hshape]
        apply ih _ (A ++ [t]) t hchain'
        · show List.Pairwise (· ≤ ·) (A ++ [t])
          rw [List.pairwise_append]
          refine ⟨hsorted, List.sorted_singleton t, ?_⟩
          intro a ha b hb
          rw [List.mem_singleton] at hb
          subst hb
          exact le_trans (hle a ha) htt
        · intro u hu
          rcases List.mem_append.mp hu with hu' | hu'
          · exact le_trans (hle u hu') htt
          · rw [List.mem_singleton] at hu'
            omega
        · rw [lookupAssoc_insertAssoc_self, Option.getD_some, List.filter_append]
          have : List.filter (fun u => decide (t - u ≤ w)) [t] = [t] := by
            simp
          rw [this]
        · intro s'
          rw [List.filter_append, List.length_append]
          by_cases hin : (decide (s' ≤ t) && decide (t ≤ s' + w)) = true
          · have h1 : (List.filter (fun u => decide (s' ≤ u) &&
                decide (u ≤ s' + w)) [t]).length = 1 := by
              simp only [List.filter_cons, List.filter_nil, hin, if_pos]
              rfl
            have hsub : (A.filter (fun u => decide (s' ≤ u) &&
                  decide (u ≤ s' + w))).length ≤
                (A.filter (fun u => decide (t - u ≤ w))).length := by
              apply length_filter_le_of_imp
              intro u hu hpu
              simp only [Bool.and_eq_true, decide_eq_true_eq] at hpu hin ⊢
              omega
            omega
          · have h0 : List.filter (fun u => decide (s' ≤ u) &&
                decide (u ≤ s' + w)) [t] = [] := by
              simp only [List.filter_cons, List.filter_nil]
              rw [if_neg hin]
            rw [h0]
            simpa using hbound s'
    · -- no rule matches: admitted unchanged for the pattern, counters kept
      have hm' : pattern_match p name = false := by
        cases h : pattern_match p name
        · rfl
        · exact absurd h hm
      have hstep : check_rate_limit [(p, ⟨maxS, w⟩)] counters t name =
          (true, counters) := by
        rw [check_rate_limit, if_neg hm, check_rate_limit]
      have hrun1 : (run_rate_limiter [(p, ⟨maxS, w⟩)] counters
            ((name, t) :: rest)).1 =
          (name, t) :: (run_rate_limiter [(p, ⟨maxS, w⟩)] counters rest).1 := by
        rw [run_rate_limiter, hstep]
        rfl
      rw [hrun1, List.filter_cons]
      simp only [hm', Bool.false_eq_true, if_false]
      exact ih counters A tstar (chain_le_of_le hchain' htt) hsorted hle
        hcounter hbound s

/-- Claim C7 is false on the code when rules overlap: `check_rate_limit`
returns after the FIRST matching rule, so a signal matched first by
another rule never touches the later rule's counter. With rules
`("*", max 1000 per 1)` and `("x", max 1 per 100)` in that iteration
order, two publishes of `x` at times 0 and 1 are both admitted through
the `"*"` counter — 2 admissions of `x` inside one interval of length
100, exceeding the `("x", (1, 100))` rule's max of 1. -/
theorem C7_counterexample :
    ¬ (((run_rate_limiter
          [(str "*", ⟨1000, 1⟩), (str "x", ⟨1, 100⟩)] []
          [(str "x", 0), (str "x", 1)]).1.filter
        (fun nt => pattern_match (str "x") nt.1 &&
          decide (0 ≤ nt.2) && decide (nt.2 ≤ 0 + 100))).length ≤
      (RateLimitRule.mk 1 100).max_signals) := by
  decide

/-- Claim C7 as amended: `admit` returns true (with all counters
untouched) when no configured rule's pattern matches the name; when a
rule matches, only the FIRST matching rule in the rule map's iteration
order is consulted: its counter is trimmed of entries older than the
window, the publish is rejected if the remaining count has reached
`max_signals`, and otherwise the current monotonic time is appended and
the publish admitted. Consequently the sliding-window bound holds per
consulted rule: when the configured rules consist of the single rule
`(p, (max, w))`, then along every publish trace with nondecreasing
monotonic times, the number of admitted publishes matching `p` whose
time lies within any interval `[s, s + w]` never exceeds `max` (with
overlapping rules a later rule's bound can be exceeded, since signals
it matches may be admitted through an earlier rule). -/
theorem C7_amended_rate_limiter :
    (∀ (rules : List (Str × RateLimitRule)) (counters : List (Str × List Nat))
        (now : Nat) (name : Str),
      (∀ r ∈ rules, pattern_match r.1 name = false) →
      check_rate_limit rules counters now name = (true, counters)) ∧
    (∀ (p : Str) (maxS w : Nat) (trace : List (Str × Nat)) (s : Nat),
      List.Chain (· ≤ ·) 0 (trace.map Prod.snd) →
      ((((run_rate_limiter [(p, ⟨maxS, w⟩)] [] trace).1.filter
          (fun nt => pattern_match p nt.1)).map Prod.snd).filter
          (fun u => decide (s ≤ u) && decide (u ≤ s + w))).length ≤ maxS) := by
  constructor
  · intro rules
    induction rules with
    | nil =>
      intro counters now name _
      rfl
    | cons r restRules ih =>
      intro counters now name h
      rcases r with ⟨pattern, rule⟩
      rw [check_rate_limit, if_neg]
      · exact ih counters now name
          (fun r' hr' => h r' (List.mem_cons_of_mem _ hr'))
      · intro hc
        have := h (pattern, rule) (List.mem_cons_self _ _)
        rw [this] at hc
        cases hc
  · intro p maxS w trace s hchain
    have h := rl_run_window_bound p maxS w trace [] [] 0 hchain
      (by simp) (by simp) rfl (by simp) s
    simpa using h

/-- Witness for amended C7: a non-matching publish is admitted with the
counters untouched, and for the single rule `("x", max 1 per 100)` a
concrete trace of two publishes of `x` at times 0 and 1 yields one
admission inside the window `[0, 100]` — within the bound. -/
theorem C7_amended_rate_limiter_witness :
    check_rate_limit [(str "a", ⟨1, 1⟩)] [] 5 (str "b") = (true, []) ∧
    ((((run_rate_limiter [(str "x", ⟨1, 100⟩)] []
        [(str "x", 0), (str "x", 1)]).1.filter
      (fun nt => pattern_match (str "x") nt.1)).map Prod.snd).filter
      (fun u => decide (0 ≤ u) && decide (u ≤ 0 + 100))).length ≤ 1 :=
  ⟨C7_amended_rate_limiter.1 [(str "a", ⟨1, 1⟩)] [] 5 (str "b") (by decide),
   C7_amended_rate_limiter.2 (str "x") 1 100 [(str "x", 0), (str "x", 1)] 0
     (by simp [List.chain_cons])⟩

end SignalBus
